import Mathlib

/-!
Shallow embedding of the `cs-grader` submission-processing pipeline
(`src/cli.py` and `src/grader/__init__.py`).

Python strings are modelled by Lean `String`, integer-valued payloads by
`Int`, file-system reads by explicit `Option`-valued fields (`none` models a
read/decode/archive failure, i.e. a raised exception), and the external
grading oracle by a function `Submission → Option OracleResponse` (`none`
models a failed oracle call).  Iterative loops are written as structural
recursion accumulating in source order.
-/

namespace CsGrader

/-! ### Data model (`src/cli.py` dataclasses) -/

/-- `SubmissionFile` dataclass: one file of a submission. -/
structure SubmissionFile where
  filename : String
  content : String
deriving DecidableEq, Repr

/-- `Submission` dataclass: a student's submission.  `original_path` is the
path of the submission file, modelled as its name string. -/
structure Submission where
  student_name : String
  files : List SubmissionFile
  original_path : String
deriving DecidableEq, Repr

/-- One element of `requirements_assessment` (dict with keys
`requirement`, `met`, `explanation`). -/
structure RequirementAssessment where
  requirement : String
  met : Bool
  explanation : String
deriving DecidableEq, Repr

/-- One element of `point_deductions` (dict with keys `reason`, `points`).
The numeric payload is modelled as `Int`; it is only ever interpolated into
output strings. -/
structure PointDeduction where
  reason : String
  points : Int
deriving DecidableEq, Repr

/-- The `extra_credit` dict (keys `awarded`, `points`, `reason`). -/
structure ExtraCredit where
  awarded : Bool
  points : Int
  reason : String
deriving DecidableEq, Repr

/-- `GradingResult` dataclass of `src/cli.py`. -/
structure GradingResult where
  student_name : String
  final_score : Int
  max_points : Int
  code_quality : String
  requirements_assessment : List RequirementAssessment
  point_deductions : List PointDeduction
  extra_credit : ExtraCredit
  overall_assessment : String
  improvement_suggestions : List String
deriving DecidableEq, Repr

/-- `FormattedResult` dataclass: a CSV row. -/
structure FormattedResult where
  last_name : String
  first_name : String
  final_score : String
  extra_credit : String
  code_quality : String
  requirements_analysis : String
  point_deductions : String
  overall_assessment : String
  areas_for_improvement : String
deriving DecidableEq, Repr

/-- The fields of a successful oracle payload that `Grader.grade_submission`
reads out of the dict returned by `grader.grade_assignment`. -/
structure OracleResponse where
  final_score : Int
  code_quality : String
  requirements_assessment : List RequirementAssessment
  point_deductions : List PointDeduction
  extra_credit : ExtraCredit
  overall_assessment : String
  improvement_suggestions : List String
deriving DecidableEq, Repr

/-! ### Python string helpers -/

/-- Python `str.split()` with no argument: split on runs of whitespace,
discarding empty pieces (so leading/trailing whitespace is irrelevant,
subsuming the `strip()` in `split_name`). -/
def splitWsAux : List Char → List Char → List String
  | [], acc => if acc.isEmpty then [] else [⟨acc.reverse⟩]
  | c :: rest, acc =>
    if c = ' ' ∨ c = '\t' ∨ c = '\n' ∨ c = '\r' then
      if acc.isEmpty then splitWsAux rest [] else ⟨acc.reverse⟩ :: splitWsAux rest []
    else splitWsAux rest (c :: acc)

/-- Python `full_name.strip().split()`. -/
def pySplit (s : String) : List String := splitWsAux s.data []

/-- Index of the last `'.'` in a character list (`str.rfind('.')`),
`none` when absent. -/
def lastDotIndex (cs : List Char) : Option Nat :=
  (cs.foldl (fun (st : Nat × Option Nat) c =>
    (st.1 + 1, if c = '.' then some st.1 else st.2)) (0, none)).2

/-- CPython `pathlib.PurePath` stem/suffix split of a file name:
the suffix is `name[i:]` for `i = name.rfind('.')` when `0 < i < len - 1`,
otherwise empty. -/
def nameSuffixSplit (name : String) : String × String :=
  let cs := name.data
  match lastDotIndex cs with
  | some i =>
    if 0 < i ∧ i < cs.length - 1 then (⟨cs.take i⟩, ⟨cs.drop i⟩) else (name, "")
  | none => (name, "")

/-- `Path(name).stem`. -/
def pyStem (name : String) : String := (nameSuffixSplit name).1

/-- `Path(name).suffix`. -/
def pySuffix (name : String) : String := (nameSuffixSplit name).2

/-- Python `s.replace('_', ' ')` (single-character pattern). -/
def replaceUnderscores (s : String) : String :=
  ⟨s.data.map (fun c => if c = '_' then ' ' else c)⟩

/-- Python `s.endswith(suffix)`. -/
def strEndsWith (s suffix : String) : Bool :=
  suffix.data == s.data.drop (s.data.length - suffix.data.length)

/-- Last element and remaining prefix of a nonempty list
(`parts[-1]` and `parts[:-1]`). -/
def lastAndInit (a : String) : List String → String × List String
  | [] => (a, [])
  | b :: t =>
    let r := lastAndInit b t
    (r.1, a :: r.2)

/-! ### `SubmissionProcessor` (`src/cli.py`) -/

/-- `SubmissionProcessor.extract_student_name`:
`Path(filename).stem.replace('_', ' ')`. -/
def extract_student_name (filename : String) : String :=
  replaceUnderscores (pyStem filename)

/-- One entry of a zip archive.  `text` is the utf-8 decoding of its bytes;
`none` models a `UnicodeDecodeError` raised by `content.decode('utf-8')`. -/
structure ZipEntry where
  filename : String
  text : Option String
deriving DecidableEq, Repr

/-- `SubmissionProcessor.process_zip_file`: iterate over the archive's
entries in order, keeping exactly those whose name ends in `.java`;
a decode failure of a kept entry raises (result `none`).  The source's
`for`-loop accumulation is written as structural recursion. -/
def process_zip_file : List ZipEntry → Option (List SubmissionFile)
  | [] => some []
  | e :: rest =>
    if strEndsWith e.filename ".java" then
      match e.text with
      | some content =>
        (process_zip_file rest).map (fun files => ⟨e.filename, content⟩ :: files)
      | none => none
    else process_zip_file rest

/-- A direct child of the submissions directory.  `asText` is the result of
reading it as a utf-8 text file (`none` = read/decode error raised by
`process_java_file`), `asZip` the result of opening it as a zip archive
(`none` = `BadZipFile` raised by `process_zip_file`). -/
structure DirEntry where
  name : String
  asText : Option String
  asZip : Option (List ZipEntry)
deriving DecidableEq, Repr

/-- The `try`-block body of `find_submissions` for one recognized entry:
`process_zip_file` for `.zip`, otherwise `process_java_file` (which wraps the
file's text in a single `SubmissionFile` named after the file). -/
def extract_entry (e : DirEntry) : Option (List SubmissionFile) :=
  if pySuffix e.name = ".zip" then
    (e.asZip).bind process_zip_file
  else
    (e.asText).map (fun content => [⟨e.name, content⟩])

/-- `SubmissionProcessor.find_submissions`: keep entries whose suffix is
`.java` or `.zip`; derive the student name; on extraction failure log and
skip the entry, otherwise append a `Submission`. -/
def find_submissions : List DirEntry → List Submission
  | [] => []
  | e :: rest =>
    if pySuffix e.name = ".java" ∨ pySuffix e.name = ".zip" then
      match extract_entry e with
      | some files =>
        ⟨extract_student_name e.name, files, e.name⟩ :: find_submissions rest
      | none => find_submissions rest
    else find_submissions rest

/-! ### `ResultFormatter` (`src/cli.py`) -/

/-- `ResultFormatter.split_name`.  `parts[-1]` on an empty list raises
`IndexError`, modelled by `none`. -/
def split_name (full_name : String) : Option (String × String) :=
  match pySplit full_name with
  | [] => none
  | [p] => some (p, "")
  | p :: q :: rest =>
    let r := lastAndInit p (q :: rest)
    some (r.1, " ".intercalate r.2)

/-- `ResultFormatter.format_requirements`. -/
def format_requirements (requirements : List RequirementAssessment) : String :=
  let met_reqs := requirements.filter (fun r => r.met)
  let unmet_reqs := requirements.filter (fun r => !r.met)
  let pieces :=
    (if met_reqs.isEmpty then [] else
      ["Requirements met:\n- " ++
        "\n- ".intercalate (met_reqs.map (fun r => r.requirement))]) ++
    (if unmet_reqs.isEmpty then [] else
      ["Requirements not met:\n- " ++
        "\n- ".intercalate (unmet_reqs.map (fun r => r.requirement ++ ": " ++ r.explanation))])
  "\n\n".intercalate pieces

/-- `ResultFormatter.format_result`.  The only partial step is
`split_name` (an `IndexError` on a blank student name propagates to the
caller), modelled by the `Option`. -/
def format_result (result : GradingResult) : Option FormattedResult :=
  (split_name result.student_name).map (fun names =>
    let deductions_text :=
      if result.point_deductions.isEmpty then "No points deducted"
      else "\n".intercalate (result.point_deductions.map
        (fun d => "- " ++ d.reason ++ " (-" ++ toString d.points ++ " points)"))
    let extra_credit_text :=
      if result.extra_credit.awarded then
        "+" ++ toString result.extra_credit.points ++ " points: " ++ result.extra_credit.reason
      else "No extra credit awarded"
    { last_name := names.1
      first_name := names.2
      final_score := toString result.final_score ++ "/" ++ toString result.max_points
      extra_credit := extra_credit_text
      code_quality := result.code_quality
      requirements_analysis := format_requirements result.requirements_assessment
      point_deductions := deductions_text
      overall_assessment := result.overall_assessment
      areas_for_improvement := "\n- " ++ "\n- ".intercalate result.improvement_suggestions })

/-! ### `Grader.grade_submission` (`src/cli.py`) -/

/-- `Grader.grade_submission`: on a successful oracle call, copy the payload
fields into a `GradingResult`; on any exception (`none`), synthesize the
failure placeholder. -/
def grade_submission (max_points : Int) (oracle : Submission → Option OracleResponse)
    (submission : Submission) : GradingResult :=
  match oracle submission with
  | some result =>
    { student_name := submission.student_name
      final_score := result.final_score
      max_points := max_points
      code_quality := result.code_quality
      requirements_assessment := result.requirements_assessment
      point_deductions := result.point_deductions
      extra_credit := result.extra_credit
      overall_assessment := result.overall_assessment
      improvement_suggestions := result.improvement_suggestions }
  | none =>
    { student_name := submission.student_name
      final_score := 0
      max_points := max_points
      code_quality := "Error during grading"
      requirements_assessment := []
      point_deductions := []
      extra_credit := { awarded := false, points := 0, reason := "" }
      overall_assessment := "Failed to grade submission"
      improvement_suggestions := ["Please resubmit or contact instructor"] }

/-! ### `grade_assignment` (`src/grader/__init__.py`) -/

/-- The two API calls `grade_assignment` can make: the Responses-API call
and the legacy Chat-Completions fallback. -/
inductive OracleCall where
  | primary
  | legacy
deriving DecidableEq, Repr

/-- `grade_assignment`: try the Responses API; on any exception fall back to
`grade_assignment_legacy`, which makes a second API call.  The arguments are
the (would-be) outcomes of the two calls (`none` = the call raises); the
result pairs the overall outcome with the list of API calls performed. -/
def grade_assignment (primaryResp legacyResp : Option OracleResponse) :
    Option OracleResponse × List OracleCall :=
  match primaryResp with
  | some r => (some r, [OracleCall.primary])
  | none =>
    match legacyResp with
    | some r => (some r, [OracleCall.primary, OracleCall.legacy])
    | none => (none, [OracleCall.primary, OracleCall.legacy])

/-! ### Sorting and output (`ResultWriter.write_results` and `grade`) -/

/-- Python string `<`: lexicographic comparison of the code-point sequences.
(Executable comparison used by the sort relations below.) -/
def charListLt : List Char → List Char → Bool
  | _, [] => false
  | [], _ :: _ => true
  | a :: as, b :: bs => if a = b then charListLt as bs else decide (a < b)

/-- Python `a < b` on strings. -/
def strLt (a b : String) : Prop := charListLt a.data b.data = true

/-- Python `a <= b` on strings (`¬ b < a`, the stable-sort preorder). -/
def strLe (a b : String) : Prop := charListLt b.data a.data = false

theorem charListLt_iff_lex : ∀ x y : List Char,
    charListLt x y = true ↔ List.Lex (· < ·) x y
  | [], [] => by simp [charListLt]
  | a :: as, [] => by
    simp only [charListLt]
    exact iff_of_false (by simp) (List.Lex.not_nil_right _ _)
  | [], b :: bs => by
    exact iff_of_true rfl List.Lex.nil
  | a :: as, b :: bs => by
    simp only [charListLt]
    by_cases h : a = b
    · subst h
      rw [if_pos rfl, charListLt_iff_lex as bs]
      exact List.Lex.cons_iff.symm
    · rw [if_neg h]
      constructor
      · intro hlt
        exact List.Lex.rel (of_decide_eq_true hlt)
      · intro hlex
        cases hlex with
        | cons h' => exact absurd rfl h
        | rel h' => exact decide_eq_true h'

theorem charListLt_eq_false_iff {x y : List Char} :
    charListLt x y = false ↔ ¬ List.Lex (· < ·) x y := by
  rw [← charListLt_iff_lex]
  cases charListLt x y <;> simp

theorem strLt_or_eq_or_gt (a b : String) :
    strLt a b ∨ a = b ∨ strLt b a := by
  rcases @trichotomous (List Char) (List.Lex (· < ·)) _ a.data b.data with h | h | h
  · exact Or.inl ((charListLt_iff_lex _ _).mpr h)
  · refine Or.inr (Or.inl ?_)
    cases a; cases b
    exact congrArg String.mk h
  · exact Or.inr (Or.inr ((charListLt_iff_lex _ _).mpr h))

theorem strLt_asymm {a b : String} (h : strLt a b) : ¬ strLt b a := by
  intro h'
  exact asymm ((charListLt_iff_lex _ _).mp h) ((charListLt_iff_lex _ _).mp h')

theorem strLt_irrefl (a : String) : ¬ strLt a a := fun h =>
  asymm ((charListLt_iff_lex _ _).mp h) ((charListLt_iff_lex _ _).mp h)

theorem strLt_trans {a b c : String} (h₁ : strLt a b) (h₂ : strLt b c) : strLt a c :=
  (charListLt_iff_lex _ _).mpr
    (Trans.trans ((charListLt_iff_lex _ _).mp h₁) ((charListLt_iff_lex _ _).mp h₂))

theorem strLe_iff_not_lt {a b : String} : strLe a b ↔ ¬ strLt b a := by
  unfold strLe strLt
  cases charListLt b.data a.data <;> simp

theorem strLe_total (a b : String) : strLe a b ∨ strLe b a := by
  rcases strLt_or_eq_or_gt a b with h | h | h
  · exact Or.inl (strLe_iff_not_lt.mpr (strLt_asymm h))
  · exact Or.inl (strLe_iff_not_lt.mpr (h ▸ strLt_irrefl a))
  · exact Or.inr (strLe_iff_not_lt.mpr (strLt_asymm h))

theorem strLe_trans {a b c : String} (h₁ : strLe a b) (h₂ : strLe b c) : strLe a c := by
  rw [strLe_iff_not_lt] at h₁ h₂ ⊢
  intro hca
  rcases strLt_or_eq_or_gt a b with h | h | h
  · exact h₂ (strLt_trans hca h)
  · exact h₂ (h ▸ hca)
  · exact h₁ h

theorem strLt_of_le_of_ne {a b : String} (h : strLe a b) (hne : a ≠ b) : strLt a b := by
  rcases strLt_or_eq_or_gt a b with h' | h' | h'
  · exact h'
  · exact absurd h' hne
  · exact absurd h' (strLe_iff_not_lt.mp h)

/-- Sort key of `rows.sort(key=lambda x: (x['Last Name'], x['First Name']))`. -/
def nameKey (r : FormattedResult) : String × String := (r.last_name, r.first_name)

/-- The stable-sort preorder of `grade`'s `results.sort(key=lambda x:
x.last_name)` (line 949). -/
def leLast (a b : FormattedResult) : Prop := strLe a.last_name b.last_name

/-- The stable-sort preorder of `write_results`'s
`rows.sort(key=lambda x: (x['Last Name'], x['First Name']))`:
lexicographic comparison of the key tuples. -/
def leName (a b : FormattedResult) : Prop :=
  strLt a.last_name b.last_name ∨
    (a.last_name = b.last_name ∧ strLe a.first_name b.first_name)

/-- Strict lexicographic order on the name keys. -/
def ltKey (a b : FormattedResult) : Prop :=
  strLt a.last_name b.last_name ∨
    (a.last_name = b.last_name ∧ strLt a.first_name b.first_name)

/-- `leLast` expressed on the key tuples alone. -/
def fstLe (p q : String × String) : Prop := strLe p.1 q.1

/-- `leName` expressed on the key tuples alone. -/
def keyLe (p q : String × String) : Prop :=
  strLt p.1 q.1 ∨ (p.1 = q.1 ∧ strLe p.2 q.2)

instance : DecidableRel strLt := fun a b =>
  inferInstanceAs (Decidable (charListLt a.data b.data = true))

instance : DecidableRel strLe := fun a b =>
  inferInstanceAs (Decidable (charListLt b.data a.data = false))

instance : DecidableRel fstLe := fun p q =>
  inferInstanceAs (Decidable (strLe p.1 q.1))

instance : DecidableRel keyLe := fun p q =>
  inferInstanceAs (Decidable (strLt p.1 q.1 ∨ (p.1 = q.1 ∧ strLe p.2 q.2)))

instance : DecidableRel leLast := fun a b =>
  inferInstanceAs (Decidable (strLe a.last_name b.last_name))

instance : DecidableRel leName := fun a b =>
  inferInstanceAs (Decidable (strLt a.last_name b.last_name ∨
    (a.last_name = b.last_name ∧ strLe a.first_name b.first_name)))

instance : DecidableRel ltKey := fun a b =>
  inferInstanceAs (Decidable (strLt a.last_name b.last_name ∨
    (a.last_name = b.last_name ∧ strLt a.first_name b.first_name)))

instance : IsTotal FormattedResult leLast :=
  ⟨fun a b => strLe_total a.last_name b.last_name⟩

instance : IsTrans FormattedResult leLast :=
  ⟨fun _ _ _ h₁ h₂ => strLe_trans h₁ h₂⟩

instance : IsTotal FormattedResult leName := by
  constructor
  intro a b
  rcases strLt_or_eq_or_gt a.last_name b.last_name with h | h | h
  · exact Or.inl (Or.inl h)
  · rcases strLe_total a.first_name b.first_name with h' | h'
    · exact Or.inl (Or.inr ⟨h, h'⟩)
    · exact Or.inr (Or.inr ⟨h.symm, h'⟩)
  · exact Or.inr (Or.inl h)

instance : IsTrans FormattedResult leName := by
  constructor
  intro a b c hab hbc
  rcases hab with h₁ | ⟨e₁, f₁⟩
  · rcases hbc with h₂ | ⟨e₂, _⟩
    · exact Or.inl (strLt_trans h₁ h₂)
    · exact Or.inl (e₂ ▸ h₁)
  · rcases hbc with h₂ | ⟨e₂, f₂⟩
    · exact Or.inl (e₁ ▸ h₂)
    · exact Or.inr ⟨e₁.trans e₂, strLe_trans f₁ f₂⟩

instance : IsAntisymm FormattedResult ltKey := by
  constructor
  intro a b hab hba
  exfalso
  rcases hab with h₁ | ⟨e₁, f₁⟩
  · rcases hba with h₂ | ⟨e₂, _⟩
    · exact strLt_asymm h₁ h₂
    · exact strLt_irrefl _ (e₂ ▸ h₁)
  · rcases hba with h₂ | ⟨_, f₂⟩
    · exact strLt_irrefl _ (e₁ ▸ h₂)
    · exact strLt_asymm f₁ f₂

/-- Row order of the written file: `grade` stable-sorts the drained queue by
last name (line 949), then `write_results` stable-sorts the rows by
(last name, first name) (line 451).  Python's `list.sort` is a stable sort,
modelled by `List.insertionSort` with the corresponding non-strict total
preorder (which is stable in the same sense). -/
def aggregate (queue : List FormattedResult) : List FormattedResult :=
  List.insertionSort leName (List.insertionSort leLast queue)

/-- A CSV field as `csv.DictWriter` emits it: quoted (with inner quotes
doubled) exactly when it contains a delimiter, quote or newline. -/
def csvField (s : String) : String :=
  if s.data.any (fun c => c == ',' || c == '"' || c == '\n' || c == '\r') then
    "\"" ++ ⟨s.data.foldr (fun c acc => if c = '"' then '"' :: '"' :: acc else c :: acc) []⟩ ++ "\""
  else s

/-- One CSV record in the column order of `fieldnames`
(`csv` module default line terminator `\r\n`). -/
def csvRow (r : FormattedResult) : String :=
  ",".intercalate ([r.last_name, r.first_name, r.final_score, r.extra_credit,
    r.code_quality, r.requirements_analysis, r.point_deductions,
    r.overall_assessment, r.areas_for_improvement].map csvField) ++ "\r\n"

/-- The fixed header row of `write_results`. -/
def csvHeader : String :=
  "Last Name,First Name,Final Score,Extra Credit,Code Quality Assessment," ++
  "Requirements Analysis,Point Deductions,Overall Assessment,Areas for Improvement\r\n"

/-- `ResultWriter.write_results`: with an empty result list it only logs and
returns (no file is created, result `none`); otherwise it sorts the rows by
(last name, first name) and writes header plus rows. -/
def write_results (results : List FormattedResult) : Option String :=
  if results.isEmpty then none
  else
    some (csvHeader ++
      String.join ((List.insertionSort leName results).map csvRow))

/-! ### The `grade` command (`src/cli.py` lines 816-954) -/

/-- The arguments and pre-flight facts of one `grade` invocation.  Paths are
modelled as component lists; `dir_valid` is `submissions_path.is_dir()` and
`guidelines_valid` is `guidelines_path.is_file()`. -/
structure GradeArgs where
  submissions_dir : List String
  dir_valid : Bool
  guidelines_valid : Bool
  max_points : Int
  threads : Int
  output : Option (List String)
deriving DecidableEq, Repr

/-- Observable outcome of a `grade` run: the process exit code, how many
grading units were dispatched (one `grade_submission` call per submission),
and the written file, if any, as (path, content). -/
structure RunTrace where
  exit_code : Nat
  grading_calls : Nat
  written : Option (List String × String)
deriving DecidableEq, Repr

/-- Line 888: `submissions_path.parent / 'grading_results.csv'`
(`Path.parent` drops the last path component). -/
def default_output_path (submissions_dir : List String) : List String :=
  submissions_dir.dropLast ++ ["grading_results.csv"]

/-- `p` lies strictly inside the directory `dir`. -/
def isInsideDir (dir p : List String) : Prop :=
  dir = p.take dir.length ∧ dir.length < p.length

instance (dir p : List String) : Decidable (isInsideDir dir p) :=
  inferInstanceAs (Decidable (_ ∧ _))

/-- The queue contents after all workers finished, given the order
`completed` in which the units completed: `process_submission` grades,
formats and enqueues each submission, and a formatting exception is caught
and logged without enqueueing anything (the `filterMap` drop). -/
def run_queue (max_points : Int) (oracle : Submission → Option OracleResponse)
    (completed : List Submission) : List FormattedResult :=
  completed.filterMap (fun s => format_result (grade_submission max_points oracle s))

/-- The `grade` command.  `directory` is the submissions directory listing;
`completed` is the order in which the thread pool's units completed (a
permutation of the discovered submissions — the only effect of the thread
count).  Validation failures raise `typer.Exit(1)` before any grading work;
otherwise all submissions are graded, the queue is drained, sorted and
written. -/
def grade (args : GradeArgs) (directory : List DirEntry)
    (oracle : Submission → Option OracleResponse)
    (completed : List Submission) : RunTrace :=
  if !args.dir_valid then ⟨1, 0, none⟩
  else if !args.guidelines_valid then ⟨1, 0, none⟩
  else if args.max_points ≤ 0 then ⟨1, 0, none⟩
  else if args.threads ≤ 0 then ⟨1, 0, none⟩
  else
    let output_path :=
      match args.output with
      | some p => p
      | none => default_output_path args.submissions_dir
    let submissions := find_submissions directory
    if submissions.isEmpty then ⟨1, 0, none⟩
    else
      let queue := run_queue args.max_points oracle completed
      let results := List.insertionSort leLast queue
      ⟨0, completed.length, (write_results results).map (fun content => (output_path, content))⟩

/-! ### Concrete fixtures used by witnesses and counterexamples -/

/-- Two rows with identical sort keys but different scores (two directory
entries `John_Smith.java` and `John_Smith.zip` produce the same student
name). -/
def rowA : FormattedResult :=
  ⟨"Smith", "John", "10/100", "-", "-", "-", "-", "-", "-"⟩

/-- Same key as `rowA`, different score. -/
def rowB : FormattedResult :=
  ⟨"Smith", "John", "20/100", "-", "-", "-", "-", "-", "-"⟩

/-- A directory whose only entry is a recognized `.java` file named `_.java`:
its stem is `_`, so the inferred student name is the single space `" "`. -/
def blankStemDir : List DirEntry := [⟨"_.java", some "class Main", none⟩]

/-- A fully valid `grade` invocation (defaulted output). -/
def defaultArgs : GradeArgs := ⟨["students"], true, true, 100, 1, none⟩

/-- Submission of `Alice_Smith.java`. -/
def subAlice : Submission :=
  ⟨"Alice Smith", [⟨"Alice_Smith.java", "class A"⟩], "Alice_Smith.java"⟩

/-- Submission of `Bob_Jones.java`. -/
def subBob : Submission :=
  ⟨"Bob Jones", [⟨"Bob_Jones.java", "class B"⟩], "Bob_Jones.java"⟩

/-- A successful oracle payload. -/
def okResponse : OracleResponse :=
  ⟨95, "good", [⟨"req", true, "done"⟩], [⟨"late", 5⟩], ⟨false, 0, ""⟩, "fine", ["tidy up"]⟩

/-- A row whose key differs from `rowA`'s. -/
def rowC : FormattedResult :=
  ⟨"Jones", "Bob", "30/100", "-", "-", "-", "-", "-", "-"⟩

/-- An oracle that always succeeds. -/
def okOracle : Submission → Option OracleResponse := fun _ => some okResponse

/-- An oracle whose every call fails. -/
def failOracle : Submission → Option OracleResponse := fun _ => none

/-- A successful `GradingResult` for Alice. -/
def gradeResA : GradingResult :=
  ⟨"Alice Smith", 95, 100, "good", [], [], ⟨false, 0, ""⟩, "fine", ["x"]⟩

/-- A failure placeholder `GradingResult` for the same student name. -/
def gradeResB : GradingResult :=
  ⟨"Alice Smith", 0, 100, "Error during grading", [], [], ⟨false, 0, ""⟩,
   "Failed to grade submission", ["Please resubmit or contact instructor"]⟩

/-- The formatted failure-placeholder row of `subAlice` with 100 max points. -/
def placeholderRowAlice : FormattedResult :=
  ⟨"Smith", "Alice", "0/100", "No extra credit awarded", "Error during grading", "",
   "No points deducted", "Failed to grade submission",
   "\n- Please resubmit or contact instructor"⟩

/-- A directory with a single well-formed submission. -/
def aliceDir : List DirEntry := [⟨"Alice_Smith.java", some "class A", none⟩]

/-- The CSV file a defaulted-output run over `aliceDir` with a failing
oracle writes. -/
def aliceCsv : String :=
  "Last Name,First Name,Final Score,Extra Credit,Code Quality Assessment,Requirements Analysis,Point Deductions,Overall Assessment,Areas for Improvement\r\nSmith,Alice,0/100,No extra credit awarded,Error during grading,,No points deducted,Failed to grade submission,\"\n- Please resubmit or contact instructor\"\r\n"

/-! ### General lemmas about the embedded pipeline -/

theorem aggregate_perm (q : List FormattedResult) : (aggregate q).Perm q :=
  (List.perm_insertionSort leName _).trans (List.perm_insertionSort leLast q)

theorem aggregate_sorted (q : List FormattedResult) :
    List.Sorted leName (aggregate q) :=
  List.sorted_insertionSort leName _

theorem ltKey_of_leName_of_key_ne {a b : FormattedResult} (h : leName a b)
    (hne : nameKey a ≠ nameKey b) : ltKey a b := by
  rcases h with h | ⟨e, hle⟩
  · exact Or.inl h
  · refine Or.inr ⟨e, strLt_of_le_of_ne hle (fun hf => hne ?_)⟩
    unfold nameKey
    rw [e, hf]

theorem sorted_ltKey_of_nodup_keys {l : List FormattedResult}
    (hs : List.Sorted leName l) (hn : (l.map nameKey).Nodup) :
    List.Sorted ltKey l := by
  have hp : l.Pairwise fun a b => nameKey a ≠ nameKey b := List.pairwise_map.mp hn
  exact (List.Pairwise.and hs hp).imp fun h => ltKey_of_leName_of_key_ne h.1 h.2

theorem aggregate_eq_of_perm_of_nodup_keys {q₁ q₂ : List FormattedResult}
    (hperm : q₁.Perm q₂) (hkeys : (q₁.map nameKey).Nodup) :
    aggregate q₁ = aggregate q₂ := by
  have h₁ := aggregate_perm q₁
  have h₂ := aggregate_perm q₂
  have hp : (aggregate q₁).Perm (aggregate q₂) := h₁.trans (hperm.trans h₂.symm)
  have hk₁ : ((aggregate q₁).map nameKey).Nodup := (h₁.map nameKey).nodup_iff.mpr hkeys
  have hk₂ : ((aggregate q₂).map nameKey).Nodup :=
    (h₂.map nameKey).nodup_iff.mpr ((hperm.map nameKey).nodup_iff.mp hkeys)
  exact List.eq_of_perm_of_sorted hp
    (sorted_ltKey_of_nodup_keys (aggregate_sorted q₁) hk₁)
    (sorted_ltKey_of_nodup_keys (aggregate_sorted q₂) hk₂)

theorem map_orderedInsert_rel {α β : Type} (f : α → β) (r : α → α → Prop)
    (s : β → β → Prop) [DecidableRel r] [DecidableRel s]
    (hrel : ∀ a b, r a b ↔ s (f a) (f b)) (a : α) :
    ∀ l : List α, (List.orderedInsert r a l).map f =
      List.orderedInsert s (f a) (l.map f)
  | [] => rfl
  | b :: l => by
    simp only [List.orderedInsert, List.map_cons]
    by_cases h : r a b
    · rw [if_pos h, if_pos ((hrel a b).mp h)]
      simp
    · rw [if_neg h, if_neg (fun h' => h ((hrel a b).mpr h'))]
      rw [← map_orderedInsert_rel f r s hrel a l]
      simp

theorem map_insertionSort_rel {α β : Type} (f : α → β) (r : α → α → Prop)
    (s : β → β → Prop) [DecidableRel r] [DecidableRel s]
    (hrel : ∀ a b, r a b ↔ s (f a) (f b)) :
    ∀ l : List α, (List.insertionSort r l).map f =
      List.insertionSort s (l.map f)
  | [] => rfl
  | a :: l => by
    simp only [List.insertionSort, List.map_cons]
    rw [← map_insertionSort_rel f r s hrel l]
    exact map_orderedInsert_rel f r s hrel a _

theorem format_result_map_nameKey (r : GradingResult) :
    (format_result r).map nameKey = split_name r.student_name := by
  unfold format_result
  cases h : split_name r.student_name with
  | none => rfl
  | some names => simp [nameKey]

theorem filterMap_format_map_nameKey (rs : List GradingResult) :
    (rs.filterMap format_result).map nameKey =
      (rs.map GradingResult.student_name).filterMap split_name := by
  rw [List.map_filterMap, List.filterMap_map]
  simp only [format_result_map_nameKey]
  rfl

theorem aggregate_map_nameKey (q : List FormattedResult) :
    (aggregate q).map nameKey =
      List.insertionSort keyLe (List.insertionSort fstLe (q.map nameKey)) := by
  unfold aggregate
  rw [map_insertionSort_rel nameKey leName keyLe (fun a b => Iff.rfl),
      map_insertionSort_rel nameKey leLast fstLe (fun a b => Iff.rfl)]

theorem process_zip_file_eq (entries : List ZipEntry)
    (hreadable : ∀ e ∈ entries,
      strEndsWith e.filename ".java" = true → e.text.isSome = true) :
    process_zip_file entries =
      some ((entries.filter (fun e => strEndsWith e.filename ".java")).map
        (fun e => ⟨e.filename, e.text.getD ""⟩)) := by
  induction entries with
  | nil => rfl
  | cons e rest ih =>
    have hrest : ∀ x ∈ rest, strEndsWith x.filename ".java" = true → x.text.isSome = true :=
      fun x hx => hreadable x (List.mem_cons_of_mem e hx)
    by_cases hj : strEndsWith e.filename ".java" = true
    · obtain ⟨c, hc⟩ := Option.isSome_iff_exists.mp
        (hreadable e (List.mem_cons_self e rest) hj)
      simp [process_zip_file, hj, hc, ih hrest, List.filter_cons_of_pos]
    · simp [process_zip_file, hj, ih hrest, List.filter_cons_of_neg,
        Bool.of_not_eq_true hj]

/-! ### The claims -/

/-- C6: extracting a readable archive with `N` entries whose names end in
`.java` and `M` other entries yields exactly the `N` (name, content) pairs of
the recognized entries, in archive entry order; the other entries are
silently ignored.  (`hreadable` is the claim's "readable archive": every
recognized entry's bytes decode as text.) -/
theorem zip_extraction_keeps_exactly_java_entries (entries : List ZipEntry)
    (hreadable : ∀ e ∈ entries,
      strEndsWith e.filename ".java" = true → e.text.isSome = true) :
    process_zip_file entries =
      some ((entries.filter (fun e => strEndsWith e.filename ".java")).map
        (fun e => ⟨e.filename, e.text.getD ""⟩)) ∧
    ((entries.filter (fun e => strEndsWith e.filename ".java")).map
      (fun e => (⟨e.filename, e.text.getD ""⟩ : SubmissionFile))).length =
      entries.countP (fun e => strEndsWith e.filename ".java") := by
  refine ⟨process_zip_file_eq entries hreadable, ?_⟩
  rw [List.length_map, List.countP_eq_length_filter]

/-- Witness for C6: a two-`.java`, one-`readme.txt` archive yields exactly
the two java pairs. -/
theorem zip_extraction_keeps_exactly_java_entries_witness :
    process_zip_file [⟨"Main.java", some "class Main"⟩, ⟨"readme.txt", some "hi"⟩,
        ⟨"Util.java", some "class Util"⟩] =
      some [⟨"Main.java", "class Main"⟩, ⟨"Util.java", "class Util"⟩] ∧
    (2 : Nat) = 2 := by
  have h := zip_extraction_keeps_exactly_java_entries
    [⟨"Main.java", some "class Main"⟩, ⟨"readme.txt", some "hi"⟩,
      ⟨"Util.java", some "class Util"⟩] (by decide)
  exact ⟨h.1.trans (by decide), by decide⟩

/-- C7: a recognized directory entry whose extraction raises is logged and
skipped: it contributes no `Submission` (and hence no placeholder row), and
every other entry of the directory is processed exactly as it would be
without the failing entry. -/
theorem discovery_skips_failed_entry (pre post : List DirEntry) (e : DirEntry)
    (hsuffix : pySuffix e.name = ".java" ∨ pySuffix e.name = ".zip")
    (hfail : extract_entry e = none) :
    find_submissions (pre ++ e :: post) =
      find_submissions pre ++ find_submissions post := by
  induction pre with
  | nil =>
    simp only [List.nil_append, find_submissions]
    rw [if_pos hsuffix, hfail]
  | cons d pre ih =>
    simp only [List.cons_append, find_submissions]
    by_cases hd : pySuffix d.name = ".java" ∨ pySuffix d.name = ".zip"
    · rw [if_pos hd, if_pos hd]
      cases hx : extract_entry d with
      | none => exact ih
      | some files =>
        show _ :: find_submissions (pre ++ e :: post) =
          (_ :: find_submissions pre) ++ find_submissions post
        rw [ih, List.cons_append]
    · rw [if_neg hd, if_neg hd]
      exact ih

/-- Witness for C7: a corrupt `bad.zip` between two good `.java` entries is
skipped while both neighbours are still discovered. -/
theorem discovery_skips_failed_entry_witness :
    find_submissions [⟨"Alice_Smith.java", some "class A", none⟩,
        ⟨"bad.zip", none, none⟩, ⟨"Bob_Jones.java", some "class B", none⟩] =
      find_submissions [⟨"Alice_Smith.java", some "class A", none⟩] ++
        find_submissions [⟨"Bob_Jones.java", some "class B", none⟩] :=
  discovery_skips_failed_entry [⟨"Alice_Smith.java", some "class A", none⟩]
    [⟨"Bob_Jones.java", some "class B", none⟩] ⟨"bad.zip", none, none⟩
    (by decide) (by decide)

/-- C3 counterexample: after the primary (Responses API) call fails, the code
does make a second attempt — the legacy Chat-Completions fallback — so a
single failed call does not yield the failure placeholder with no second
attempt. -/
theorem failed_primary_call_triggers_second_attempt :
    (grade_assignment none none).2 = [OracleCall.primary, OracleCall.legacy] ∧
    ¬ (grade_assignment none none).2.length = 1 := by
  decide

/-- C3 amended: a failed primary call triggers exactly one fallback attempt
via the legacy Chat-Completions API (two calls total, never more, and no
further retry); the overall grading call fails only when both attempts fail,
and in that case the caller synthesizes the single failure placeholder. -/
theorem grade_assignment_fallback_bounded (p l : Option OracleResponse)
    (hp : p = none) :
    (grade_assignment p l).2 = [OracleCall.primary, OracleCall.legacy] ∧
    (grade_assignment p l).2.length ≤ 2 ∧
    (grade_assignment p l).1 = l ∧
    (∀ s : Submission, ∀ mp : Int, l = none →
      (grade_submission mp (fun _ => (grade_assignment p l).1) s).final_score = 0 ∧
      (grade_submission mp (fun _ => (grade_assignment p l).1) s).overall_assessment =
        "Failed to grade submission") := by
  subst hp
  cases l with
  | none => exact ⟨rfl, Nat.le.refl, rfl, fun s mp _ => ⟨rfl, rfl⟩⟩
  | some r =>
    exact ⟨rfl, Nat.le.refl, rfl, fun s mp hl => absurd hl (by simp)⟩

/-- Witness for C3's amended theorem at a concrete failing run. -/
theorem grade_assignment_fallback_bounded_witness :
    (grade_assignment none none).2 = [OracleCall.primary, OracleCall.legacy] ∧
    (grade_assignment none none).2.length ≤ 2 ∧
    (grade_assignment none none).1 = none ∧
    (grade_submission 100 (fun _ => (grade_assignment none none).1) subAlice).final_score = 0 ∧
    (grade_submission 100 (fun _ => (grade_assignment none none).1) subAlice).overall_assessment =
      "Failed to grade submission" := by
  have h := grade_assignment_fallback_bounded none none rfl
  exact ⟨h.1, h.2.1, h.2.2.1, (h.2.2.2 subAlice 100 rfl).1, (h.2.2.2 subAlice 100 rfl).2⟩

/-- C1 (failing input): a directory whose single recognized entry is
`_.java` is discovered as one submission (K = 1), a `GradingResult` is
produced for it, but formatting raises (`split_name` of the blank student
name `" "` evaluates `parts[-1]` on an empty list); `process_submission`
swallows the exception, so the run exits successfully with zero rows and no
output file — the submission is silently dropped between grading and the
written CSV. -/
theorem blank_stem_submission_dropped :
    (find_submissions blankStemDir).length = 1 ∧
    run_queue 100 (fun _ => none) (find_submissions blankStemDir) = [] ∧
    (grade defaultArgs blankStemDir (fun _ => none)
      (find_submissions blankStemDir)).exit_code = 0 ∧
    (grade defaultArgs blankStemDir (fun _ => none)
      (find_submissions blankStemDir)).written = none := by
  decide

/-- C4 counterexample: two formatted results with identical (last, first)
keys but different scores.  They form the same multiset in either completion
order, yet the written row order differs (Python's sort is stable, so tied
rows keep completion order): the final row order is not a function of the
result set alone. -/
theorem row_order_depends_on_completion_order :
    ([rowA, rowB] : List FormattedResult).Perm [rowB, rowA] ∧
    aggregate [rowA, rowB] ≠ aggregate [rowB, rowA] := by
  refine ⟨by decide, by decide⟩

/-- C4 amended: the written rows are always sorted by last-name then
first-name; whenever the (last, first) keys of the results are pairwise
distinct, the row order is a function of the result multiset alone,
independent of the order in which workers completed (rows with identical
keys appear in completion order instead). -/
theorem rows_sorted_and_order_deterministic_on_distinct_keys
    (q₁ q₂ : List FormattedResult) (hperm : q₁.Perm q₂)
    (hkeys : (q₁.map nameKey).Nodup) :
    List.Sorted leName (aggregate q₁) ∧ aggregate q₁ = aggregate q₂ :=
  ⟨aggregate_sorted q₁, aggregate_eq_of_perm_of_nodup_keys hperm hkeys⟩

/-- Witness for C4's amended theorem: two distinct-keyed rows in either
completion order sort to the same output. -/
theorem rows_sorted_and_order_deterministic_on_distinct_keys_witness :
    List.Sorted leName (aggregate [rowA, rowC]) ∧
    aggregate [rowA, rowC] = aggregate [rowC, rowA] :=
  rows_sorted_and_order_deterministic_on_distinct_keys [rowA, rowC] [rowC, rowA]
    (by decide) (by decide)

/-- C9: the thread count only determines the order in which grading units
complete; for any two completion orders of the same discovered submissions
(e.g. one from a 1-worker run and one from an 8-worker run), the multiset of
output rows is identical. -/
theorem worker_count_does_not_change_row_set (mp : Int)
    (oracle : Submission → Option OracleResponse)
    (subs completed₁ completed₂ : List Submission)
    (h₁ : completed₁.Perm subs) (h₂ : completed₂.Perm subs) :
    (↑(aggregate (run_queue mp oracle completed₁)) : Multiset FormattedResult) =
    ↑(aggregate (run_queue mp oracle completed₂)) := by
  apply Multiset.coe_eq_coe.mpr
  exact (aggregate_perm _).trans
    (((h₁.trans h₂.symm).filterMap _).trans (aggregate_perm _).symm)

/-- Witness for C9 on a concrete two-submission batch and two completion
orders. -/
theorem worker_count_does_not_change_row_set_witness :
    (↑(aggregate (run_queue 100 okOracle [subAlice, subBob])) : Multiset FormattedResult) =
    ↑(aggregate (run_queue 100 okOracle [subBob, subAlice])) :=
  worker_count_does_not_change_row_set 100 okOracle [subAlice, subBob]
    [subAlice, subBob] [subBob, subAlice] (List.Perm.refl _) (by decide)

/-- C8: formatting, sorting and serialization are pure functions of the
completed `GradingResult` list (running them twice on the same input yields
byte-identical output), and the sort order — the sequence of (last, first)
keys of the written rows — is a function of the student identity strings
alone. -/
theorem aggregation_pure_and_name_keyed (rs₁ rs₂ : List GradingResult) :
    (rs₁ = rs₂ →
      write_results (List.insertionSort leLast (rs₁.filterMap format_result)) =
      write_results (List.insertionSort leLast (rs₂.filterMap format_result))) ∧
    (rs₁.map GradingResult.student_name = rs₂.map GradingResult.student_name →
      (aggregate (rs₁.filterMap format_result)).map nameKey =
      (aggregate (rs₂.filterMap format_result)).map nameKey) := by
  constructor
  · intro h
    rw [h]
  · intro hnames
    rw [aggregate_map_nameKey, aggregate_map_nameKey,
        filterMap_format_map_nameKey, filterMap_format_map_nameKey, hnames]

/-- Witness for C8: two result lists for the same student names (one
successful, one failed run) produce the same key sequence. -/
theorem aggregation_pure_and_name_keyed_witness :
    (aggregate ([gradeResA].filterMap format_result)).map nameKey =
    (aggregate ([gradeResB].filterMap format_result)).map nameKey :=
  (aggregation_pure_and_name_keyed [gradeResA] [gradeResB]).2 (by decide)

/-- C5: a `grade` invocation with non-positive `max_points` or non-positive
`threads` exits with code 1 before any grading work starts and neither
creates nor touches an output file. -/
theorem grade_rejects_nonpositive_config (args : GradeArgs)
    (directory : List DirEntry) (oracle : Submission → Option OracleResponse)
    (completed : List Submission)
    (h : args.max_points ≤ 0 ∨ args.threads ≤ 0) :
    (grade args directory oracle completed).exit_code = 1 ∧
    (grade args directory oracle completed).grading_calls = 0 ∧
    (grade args directory oracle completed).written = none := by
  cases hv : args.dir_valid with
  | false => simp [grade, hv]
  | true =>
    cases hg : args.guidelines_valid with
    | false => simp [grade, hv, hg]
    | true =>
      by_cases hmp : args.max_points ≤ 0
      · simp [grade, hv, hg, hmp]
      · rcases h with h | h
        · exact absurd h hmp
        · simp [grade, hv, hg, hmp, h]

/-- Witness for C5 at `max_points = 0`. -/
theorem grade_rejects_nonpositive_config_witness :
    (grade ⟨["students"], true, true, 0, 1, none⟩ [] failOracle []).exit_code = 1 ∧
    (grade ⟨["students"], true, true, 0, 1, none⟩ [] failOracle []).grading_calls = 0 ∧
    (grade ⟨["students"], true, true, 0, 1, none⟩ [] failOracle []).written = none :=
  grade_rejects_nonpositive_config ⟨["students"], true, true, 0, 1, none⟩ [] failOracle []
    (Or.inl (by decide))

theorem grade_written_path (args : GradeArgs) (directory : List DirEntry)
    (oracle : Submission → Option OracleResponse) (completed : List Submission)
    (path : List String) (content : String)
    (hw : (grade args directory oracle completed).written = some (path, content)) :
    path = (args.output).getD (default_output_path args.submissions_dir) := by
  unfold grade at hw
  cases hv : args.dir_valid with
  | false => rw [hv] at hw; simp at hw
  | true =>
    rw [hv] at hw
    cases hg : args.guidelines_valid with
    | false => rw [hg] at hw; simp at hw
    | true =>
      rw [hg] at hw
      simp only [Bool.not_true, Bool.false_eq_true, if_false] at hw
      by_cases hmp : args.max_points ≤ 0
      · rw [if_pos hmp] at hw; simp at hw
      · rw [if_neg hmp] at hw
        by_cases hth : args.threads ≤ 0
        · rw [if_pos hth] at hw; simp at hw
        · rw [if_neg hth] at hw
          by_cases he : (find_submissions directory).isEmpty
          · simp only [he, if_true] at hw
            simp at hw
          · simp only [he, Bool.false_eq_true, if_false] at hw
            cases hwr : write_results
                (List.insertionSort leLast (run_queue args.max_points oracle completed)) with
            | none =>
              rw [hwr] at hw
              exact absurd hw (by simp)
            | some s =>
              rw [hwr] at hw
              cases ho : args.output with
              | none =>
                rw [ho] at hw
                simp at hw
                simp [hw.1.symm]
              | some p =>
                rw [ho] at hw
                simp at hw
                simp [hw.1.symm]

/-- C10: when no output path is supplied, the results file is written as
`grading_results.csv` in the parent directory of the submissions directory,
not inside the submissions directory itself (`hdir`: the submissions
directory is not the file-system root). -/
theorem default_output_in_parent_directory (args : GradeArgs)
    (directory : List DirEntry) (oracle : Submission → Option OracleResponse)
    (completed : List Submission) (path : List String) (content : String)
    (hout : args.output = none) (hdir : args.submissions_dir ≠ [])
    (hw : (grade args directory oracle completed).written = some (path, content)) :
    path = default_output_path args.submissions_dir ∧
    ¬ isInsideDir args.submissions_dir path := by
  have hpath := grade_written_path args directory oracle completed path content hw
  rw [hout, Option.getD_none] at hpath
  have hpos : 0 < args.submissions_dir.length := List.length_pos.mpr hdir
  have hlen : (default_output_path args.submissions_dir).length =
      args.submissions_dir.length := by
    unfold default_output_path
    rw [List.length_append, List.length_dropLast]
    simp only [List.length_singleton]
    omega
  refine ⟨hpath, ?_⟩
  intro hin
  obtain ⟨-, hlt⟩ := hin
  rw [hpath, hlen] at hlt
  exact lt_irrefl _ hlt

set_option maxRecDepth 4000 in
/-- Witness for C10: a defaulted-output run over `aliceDir` writes
`grading_results.csv` into the parent of `students`, not inside it. -/
theorem default_output_in_parent_directory_witness :
    (["grading_results.csv"] : List String) = default_output_path ["students"] ∧
    ¬ isInsideDir ["students"] ["grading_results.csv"] :=
  default_output_in_parent_directory defaultArgs aliceDir failOracle
    (find_submissions aliceDir) ["grading_results.csv"] aliceCsv rfl (by decide)
    (by decide)

theorem grade_submission_congr (mp : Int)
    (o₁ o₂ : Submission → Option OracleResponse) (s : Submission)
    (h : o₂ s = o₁ s) :
    grade_submission mp o₂ s = grade_submission mp o₁ s := by
  unfold grade_submission
  rw [h]

/-- C2: if the oracle call for submission `S` fails, the formatted row
produced for `S` has `final_score = "0/<max_points>"` and the fixed
diagnostic `overall_assessment = "Failed to grade submission"`, while the
row of every other submission is exactly what it would be under an oracle
that behaves identically on those submissions. -/
theorem oracle_failure_gives_placeholder_row (mp : Int)
    (o₁ o₂ : Submission → Option OracleResponse)
    (subs : List Submission) (i : Nat) (hi : i < subs.length)
    (fr : FormattedResult)
    (hfail : o₂ (subs.get ⟨i, hi⟩) = none)
    (hrow : format_result (grade_submission mp o₂ (subs.get ⟨i, hi⟩)) = some fr)
    (hagree : ∀ j, ∀ hj : j < subs.length, j ≠ i →
      o₂ (subs.get ⟨j, hj⟩) = o₁ (subs.get ⟨j, hj⟩)) :
    fr.final_score = "0/" ++ toString mp ∧
    fr.overall_assessment = "Failed to grade submission" ∧
    ∀ j, ∀ hj : j < subs.length, j ≠ i →
      format_result (grade_submission mp o₂ (subs.get ⟨j, hj⟩)) =
      format_result (grade_submission mp o₁ (subs.get ⟨j, hj⟩)) := by
  have hph : grade_submission mp o₂ (subs.get ⟨i, hi⟩) =
      { student_name := (subs.get ⟨i, hi⟩).student_name
        final_score := 0
        max_points := mp
        code_quality := "Error during grading"
        requirements_assessment := []
        point_deductions := []
        extra_credit := { awarded := false, points := 0, reason := "" }
        overall_assessment := "Failed to grade submission"
        improvement_suggestions := ["Please resubmit or contact instructor"] } := by
    unfold grade_submission
    rw [hfail]
  rw [hph] at hrow
  unfold format_result at hrow
  cases hsp : split_name (subs.get ⟨i, hi⟩).student_name with
  | none =>
    rw [hsp] at hrow
    exact absurd hrow (by simp)
  | some names =>
    rw [hsp] at hrow
    simp only [Option.map_some] at hrow
    have hfr := Option.some.inj hrow
    refine ⟨?_, ?_, ?_⟩
    · rw [← hfr]
      rfl
    · rw [← hfr]
    · intro j hj hne
      exact congrArg format_result (grade_submission_congr mp o₁ o₂ _ (hagree j hj hne))

/-- Witness for C2: the failed oracle call for `subAlice` produces the
concrete placeholder row. -/
theorem oracle_failure_gives_placeholder_row_witness :
    placeholderRowAlice.final_score = "0/" ++ toString (100 : Int) ∧
    placeholderRowAlice.overall_assessment = "Failed to grade submission" := by
  have h := oracle_failure_gives_placeholder_row 100 failOracle failOracle
    [subAlice, subBob] 0 (by decide) placeholderRowAlice rfl (by decide)
    (fun j hj hne => rfl)
  exact ⟨h.1, h.2.1⟩

end CsGrader
